import Mathlib

/-
Verification of the auscat-util query helpers (queryfunctions.py).

The module under verification is Python glue around a PostgreSQL driver
(psycopg2 / sqlalchemy / pandas), a SPARQL client (SPARQLWrapper), a YAML
loader, and an XML library (lxml).  The shallow embedding below models text
as lists of characters (so that every definition evaluates inside the
kernel), models each external driver call by an explicit oracle argument
(success or raised-exception outcome), and models each operation's
observable behaviour as the list of side-effect events it performs plus its
Python-level outcome: `Except.error` means an exception propagates to the
caller, `Except.ok` means the call returns normally.
-/

/-- Text is modelled as a list of characters; string literals enter through
`String.data` so that every text operation reduces in the kernel. -/
abbrev Str := List Char

/-- Model of Python `str.split(sep)` for a one-character separator: splitting
the empty text yields one empty fragment, and every occurrence of the
separator starts a new fragment, so a trailing separator produces a trailing
empty fragment. -/
def pySplit (sep : Char) : Str → List Str
  | [] => [[]]
  | c :: cs =>
    match pySplit sep cs with
    | [] => [[]]
    | g :: gs => if c = sep then [] :: g :: gs else (c :: g) :: gs

/-- Model of Python `str.endswith(suffix)`: `sfxOf suffix s` is true when
`suffix` is a suffix of `s`. -/
def sfxOf (suffix s : Str) : Bool := suffix.reverse.isPrefixOf s.reverse

/-- Model of Python `str.strip()` restricted to blanks and tabs, used by the
flat key-value reading of the YAML configuration files. -/
def trimL (l : Str) : Str :=
  ((l.dropWhile (fun c => c = ' ' || c = '\t')).reverse.dropWhile
    (fun c => c = ' ' || c = '\t')).reverse

/-- Observable side effects of the Python module, in the order they are
performed: database connection management, statement execution, commits,
error logging, pandas engine management, `copy_expert` bulk copies, SPARQL
requests, local file writes and the HTTP PUT issued through `curl`. -/
inductive Event where
  | connect
  | setIsolationLevel (n : Nat)
  | execute (stmt : Str)
  | commit
  | logError (msg : Str)
  | cursorClose
  | connClose
  | engineCreate
  | readSqlQuery (stmt : Str)
  | engineDispose
  | copyExpert (sql : Str)
  | sparqlQueryIssued (q : Str)
  | fileWrite (path : Str) (content : Str)
  | httpPut (url : Str) (body : Str)
  deriving Repr, DecidableEq

/-- Python exceptions that the modelled operations can let propagate to the
caller. -/
inductive PyErr where
  | unboundLocal (name : Str)
  | fileNotFound (path : Str)
  | dbError (msg : Str)
  deriving Repr, DecidableEq

deriving instance DecidableEq for Except

/-- A pandas DataFrame abstracted to its observable content: named columns
and rows of cells, where a `none` cell models `np.NaN`. -/
structure Frame where
  cols : List Str
  rows : List (List (Option Str))
  deriving Repr, DecidableEq

/-- The statement-execution loop of `SqlScriptRunner.run_sql_script`:
`for command in sql_commands[:-1]: cursor.execute(command); conn.commit()`
wrapped in `try/except psycopg2.DatabaseError`.  The oracle `db` gives the
outcome of the i-th `cursor.execute` call: `none` for success, `some msg`
for a raised `DatabaseError`, which is logged and ends the iteration. -/
def execLoop (db : Nat → Option Str) : Nat → List Str → List Event
  | _, [] => []
  | i, c :: cs =>
    match db i with
    | none => Event.execute c :: Event.commit :: execLoop db (i + 1) cs
    | some msg => [Event.execute c, Event.logError msg]

/-- Model of `SqlScriptRunner.run_sql_script` after the script file has been
read and the connection opened: split the script text on `;`, set isolation
level 0, execute every fragment except the last, committing after each,
stop and log on a `DatabaseError`, and close cursor and connection in the
`finally` block. -/
def run_sql_script (script : Str) (db : Nat → Option Str) : List Event :=
  let sql_commands := pySplit ';' script
  Event.connect :: Event.setIsolationLevel 0 ::
    (execLoop db 0 sql_commands.dropLast ++ [Event.cursorClose, Event.connClose])

/-- The SQL statements a trace actually executed, in order. -/
def executedOf (evs : List Event) : List Str :=
  evs.filterMap (fun e => match e with | Event.execute s => some s | _ => none)

/-- The statements a trace handed to `pd.read_sql_query`, in order. -/
def queriesOf (evs : List Event) : List Str :=
  evs.filterMap (fun e => match e with | Event.readSqlQuery s => some s | _ => none)

/-- Model of `SqlScriptRunner.get_dataframe`: split the script text on `;`,
create an engine, hand only the first fragment to `pd.read_sql_query`
(oracle `dbq`), catch and log any exception, and dispose the engine in the
`finally` block. -/
def get_dataframe (script : Str) (dbq : Str → Except Str Frame) :
    List Event × Option Frame :=
  let sql_commands := pySplit ';' script
  let first := sql_commands.headD []
  match dbq first with
  | Except.ok df =>
      ([Event.engineCreate, Event.readSqlQuery first, Event.engineDispose], some df)
  | Except.error msg =>
      ([Event.engineCreate, Event.readSqlQuery first, Event.logError msg,
        Event.engineDispose], none)

theorem execLoop_all_ok (db : Nat → Option Str) (hdb : ∀ i, db i = none) :
    ∀ (cmds : List Str) (i : Nat),
      execLoop db i cmds = cmds.flatMap (fun c => [Event.execute c, Event.commit])
  | [], _ => rfl
  | c :: cs, i => by
    simp only [execLoop, hdb i, List.flatMap_cons, execLoop_all_ok db hdb cs (i + 1)]
    rfl

theorem executedOf_pairs :
    ∀ cmds : List Str,
      executedOf (cmds.flatMap (fun c => [Event.execute c, Event.commit])) = cmds
  | [] => rfl
  | c :: cs => by
    simp only [List.flatMap_cons, executedOf, List.filterMap_append]
    have h := executedOf_pairs cs
    simp only [executedOf] at h
    simp [h, List.filterMap]

/-- C1: with no database error, `run_sql_script` splits the script on `;`,
executes every fragment except the last one, commits after each executed
fragment, and the list of executed statements is exactly the split minus
its last fragment. -/
theorem run_sql_script_all_but_last (script : Str) (db : Nat → Option Str)
    (hdb : ∀ i, db i = none) :
    run_sql_script script db =
      Event.connect :: Event.setIsolationLevel 0 ::
        (((pySplit ';' script).dropLast.flatMap
            (fun c => [Event.execute c, Event.commit]))
          ++ [Event.cursorClose, Event.connClose]) ∧
    executedOf (run_sql_script script db) = (pySplit ';' script).dropLast := by
  have h1 : run_sql_script script db =
      Event.connect :: Event.setIsolationLevel 0 ::
        (((pySplit ';' script).dropLast.flatMap
            (fun c => [Event.execute c, Event.commit]))
          ++ [Event.cursorClose, Event.connClose]) := by
    simp only [run_sql_script, execLoop_all_ok db hdb]
  refine ⟨h1, ?_⟩
  rw [h1]
  simp only [executedOf, List.filterMap_cons, List.filterMap_append]
  have h := executedOf_pairs (pySplit ';' script).dropLast
  simp only [executedOf] at h
  simp [h]

/-- Witness for C1: a script of exactly two statements with a trailing
empty fragment executes exactly those two statements. -/
theorem run_sql_script_all_but_last_witness :
    (∀ i : Nat, (fun _ : Nat => (none : Option Str)) i = none) ∧
    executedOf (run_sql_script "s1;s2;".data (fun _ => none)) = ["s1".data, "s2".data] := by
  refine ⟨fun _ => rfl, ?_⟩
  have h := run_sql_script_all_but_last "s1;s2;".data (fun _ => none) (fun _ => rfl)
  exact h.2.trans (by decide)

theorem execLoop_stops (db : Nat → Option Str) (msg : Str) :
    ∀ (cmds : List Str) (i k : Nat), k < cmds.length →
      (∀ j, j < k → db (i + j) = none) → db (i + k) = some msg →
      execLoop db i cmds =
        ((cmds.take k).flatMap (fun c => [Event.execute c, Event.commit]))
          ++ [Event.execute (cmds.getD k []), Event.logError msg]
  | [], _, k, hk, _, _ => absurd hk (by simp)
  | c :: cs, i, 0, _, _, hfail => by
    simp only [Nat.add_zero] at hfail
    simp [execLoop, hfail]
  | c :: cs, i, k + 1, hk, hpre, hfail => by
    have h0 : db i = none := by
      have := hpre 0 (Nat.succ_pos k)
      simpa using this
    have hrec := execLoop_stops db msg cs (i + 1) k
      (by simpa using Nat.lt_of_succ_lt_succ hk)
      (fun j hj => by
        have := hpre (j + 1) (Nat.succ_lt_succ hj)
        simpa [Nat.add_assoc, Nat.add_comm 1 j] using this)
      (by
        have : i + (k + 1) = i + 1 + k := by omega
        rw [← this]
        exact hfail)
    simp [execLoop, h0, hrec, List.flatMap_cons]

theorem count_commit_pairs :
    ∀ cmds : List Str,
      List.count Event.commit (cmds.flatMap (fun c => [Event.execute c, Event.commit])) =
        cmds.length
  | [] => rfl
  | c :: cs => by
    simp [List.flatMap_cons, List.count_append, List.count_cons, count_commit_pairs cs]

/-- C5: when the statement at position k (0-based) raises a database error
and all earlier ones succeed, `run_sql_script` executes statements 0..k,
commits exactly the k statements before the failing one, logs the error,
executes nothing further, and still closes cursor and connection in the
final step. -/
theorem run_sql_script_stops_on_error (script : Str) (db : Nat → Option Str)
    (k : Nat) (msg : Str)
    (hk : k < ((pySplit ';' script).dropLast).length)
    (hpre : ∀ j, j < k → db j = none)
    (hfail : db k = some msg) :
    run_sql_script script db =
      Event.connect :: Event.setIsolationLevel 0 ::
        (((((pySplit ';' script).dropLast.take k).flatMap
            (fun c => [Event.execute c, Event.commit]))
          ++ [Event.execute ((pySplit ';' script).dropLast.getD k []),
              Event.logError msg])
          ++ [Event.cursorClose, Event.connClose]) ∧
    List.count Event.commit (run_sql_script script db) = k := by
  have hloop := execLoop_stops db msg (pySplit ';' script).dropLast 0 k hk
    (fun j hj => by simpa using hpre j hj) (by simpa using hfail)
  have h1 : run_sql_script script db =
      Event.connect :: Event.setIsolationLevel 0 ::
        (((((pySplit ';' script).dropLast.take k).flatMap
            (fun c => [Event.execute c, Event.commit]))
          ++ [Event.execute ((pySplit ';' script).dropLast.getD k []),
              Event.logError msg])
          ++ [Event.cursorClose, Event.connClose]) := by
    simp only [run_sql_script, hloop, List.append_assoc]
  refine ⟨h1, ?_⟩
  rw [h1]
  have hlen : ((pySplit ';' script).dropLast.take k).length = k :=
    List.length_take_of_le (Nat.le_of_lt hk)
  simp [List.count_cons, List.count_append, count_commit_pairs, hlen]

/-- Witness for C5: in a three-statement script whose second statement
fails, the first statement is executed and committed, the second is
executed and its error logged, the third is never executed, and the
connection is closed. -/
theorem run_sql_script_stops_on_error_witness :
    run_sql_script "a;b;c;".data
        (fun i => if i = 1 then some "boom".data else none) =
      [Event.connect, Event.setIsolationLevel 0,
       Event.execute "a".data, Event.commit,
       Event.execute "b".data, Event.logError "boom".data,
       Event.cursorClose, Event.connClose] := by
  have h := run_sql_script_stops_on_error "a;b;c;".data
    (fun i => if i = 1 then some "boom".data else none) 1 "boom".data
    (by decide) (fun j hj => by have hj0 : j = 0 := by omega
                                subst hj0
                                rfl) rfl
  exact h.1.trans (by decide)

/-- C2: `get_dataframe` hands exactly the first `;`-separated fragment of
the script to `pd.read_sql_query`; no statement is ever executed through a
cursor, and whenever the first fragment succeeds its result is returned,
regardless of what executing the later fragments would have done. -/
theorem get_dataframe_first_only (script : Str) (dbq : Str → Except Str Frame) :
    queriesOf (get_dataframe script dbq).1 = [(pySplit ';' script).headD []] ∧
    executedOf (get_dataframe script dbq).1 = [] ∧
    (∀ df, dbq ((pySplit ';' script).headD []) = Except.ok df →
      (get_dataframe script dbq).2 = some df) := by
  cases h : dbq ((pySplit ';' script).headD []) with
  | ok df =>
    have hd : get_dataframe script dbq =
        ([Event.engineCreate, Event.readSqlQuery ((pySplit ';' script).headD []),
          Event.engineDispose], some df) := by
      simp only [get_dataframe]
      rw [h]
    refine ⟨?_, ?_, ?_⟩
    · rw [hd]; simp [queriesOf]
    · rw [hd]; simp [executedOf]
    · intro df2 h2
      cases h2
      rw [hd]
  | error msg =>
    have hd : get_dataframe script dbq =
        ([Event.engineCreate, Event.readSqlQuery ((pySplit ';' script).headD []),
          Event.logError msg, Event.engineDispose], none) := by
      simp only [get_dataframe]
      rw [h]
    refine ⟨?_, ?_, ?_⟩
    · rw [hd]; simp [queriesOf]
    · rw [hd]; simp [executedOf]
    · intro df2 h2
      cases h2

/-- Witness for C2: on a two-statement script whose second statement would
raise if executed, only the first statement is queried and its frame is
returned. -/
theorem get_dataframe_first_only_witness :
    queriesOf (get_dataframe "SELECT a FROM t;DROP TABLE t;".data
        (fun s => if s = "SELECT a FROM t".data then Except.ok ⟨[], []⟩
                  else Except.error "would fail".data)).1 =
      ["SELECT a FROM t".data] ∧
    (get_dataframe "SELECT a FROM t;DROP TABLE t;".data
        (fun s => if s = "SELECT a FROM t".data then Except.ok ⟨[], []⟩
                  else Except.error "would fail".data)).2 = some ⟨[], []⟩ := by
  have h := get_dataframe_first_only "SELECT a FROM t;DROP TABLE t;".data
    (fun s => if s = "SELECT a FROM t".data then Except.ok ⟨[], []⟩
              else Except.error "would fail".data)
  exact ⟨h.1.trans (by decide), h.2.2 ⟨[], []⟩ (by decide)⟩

/-- Model of `SPARQLQueryRunner.sparql_query_return_xml`: issue the query
with XML return format inside `try`, log any exception; the `return
results.toxml()` after the handler then reads `results`, which is unbound
when the query failed, so an `UnboundLocalError` propagates.  The oracle
`net` gives the converted result of `sparql.query().convert()` or the
raised exception's message. -/
def sparql_query_return_xml (querytext : Str) (net : Str → Except Str Str) :
    List Event × Except PyErr Str :=
  match net querytext with
  | Except.ok xml =>
      ([Event.sparqlQueryIssued querytext], Except.ok xml)
  | Except.error msg =>
      ([Event.sparqlQueryIssued querytext, Event.logError msg],
       Except.error (PyErr.unboundLocal "results".data))

/-- Counterexample to C3: when the SPARQL request fails,
`sparql_query_return_xml` does not return normally — after catching and
logging the network error it evaluates `results.toxml()` on the unbound
variable and an `UnboundLocalError` propagates to the caller. -/
theorem sparql_query_return_xml_counterexample :
    (sparql_query_return_xml "SELECT 1".data
        (fun _ => Except.error "connection refused".data)).2 =
      Except.error (PyErr.unboundLocal "results".data) := rfl

/-- C3 (amended): when the underlying SPARQL request fails, the exception
is caught at the operation boundary and logged, but the operation does not
return normally: it subsequently raises `UnboundLocalError` to the
caller. -/
theorem sparql_query_return_xml_error_policy (q : Str)
    (net : Str → Except Str Str) (msg : Str)
    (hnet : net q = Except.error msg) :
    (sparql_query_return_xml q net).1 =
      [Event.sparqlQueryIssued q, Event.logError msg] ∧
    (sparql_query_return_xml q net).2 =
      Except.error (PyErr.unboundLocal "results".data) := by
  constructor
  · simp [sparql_query_return_xml, hnet]
  · simp [sparql_query_return_xml, hnet]

/-- Witness for the amended C3 at a concrete failing request. -/
theorem sparql_query_return_xml_error_policy_witness :
    (sparql_query_return_xml "SELECT 2".data
        (fun _ => Except.error "timeout".data)).1 =
      [Event.sparqlQueryIssued "SELECT 2".data, Event.logError "timeout".data] ∧
    (sparql_query_return_xml "SELECT 2".data
        (fun _ => Except.error "timeout".data)).2 =
      Except.error (PyErr.unboundLocal "results".data) :=
  sparql_query_return_xml_error_policy "SELECT 2".data
    (fun _ => Except.error "timeout".data) "timeout".data rfl

/-- Model of `SqlScriptRunner.import_csv`: open a connection and a cursor,
run `cursor.copy_expert` on the script text outside any `try` (so a
database error there propagates), then `try: conn.commit()` with a
catch-and-log handler.  No path closes the connection.  `copyRes` and
`commitRes` are the driver oracles. -/
def import_csv (sqlText : Str) (copyRes : Except Str Unit)
    (commitRes : Except Str Unit) : List Event × Except PyErr Unit :=
  match copyRes with
  | Except.error msg =>
      ([Event.connect, Event.copyExpert sqlText],
       Except.error (PyErr.dbError msg))
  | Except.ok _ =>
      match commitRes with
      | Except.ok _ =>
          ([Event.connect, Event.copyExpert sqlText, Event.commit], Except.ok ())
      | Except.error msg =>
          ([Event.connect, Event.copyExpert sqlText, Event.logError msg],
           Except.ok ())

/-- Model of `SqlScriptRunner.export_to_csv`, which has exactly the same
connection and error structure as `import_csv` with the copy direction
reversed: the `copy_expert` call streams the result into the csv file, the
commit is wrapped in a catch-and-log `try`, and the connection is never
closed. -/
def export_to_csv (sqlText : Str) (copyRes : Except Str Unit)
    (commitRes : Except Str Unit) : List Event × Except PyErr Unit :=
  match copyRes with
  | Except.error msg =>
      ([Event.connect, Event.copyExpert sqlText],
       Except.error (PyErr.dbError msg))
  | Except.ok _ =>
      match commitRes with
      | Except.ok _ =>
          ([Event.connect, Event.copyExpert sqlText, Event.commit], Except.ok ())
      | Except.error msg =>
          ([Event.connect, Event.copyExpert sqlText, Event.logError msg],
           Except.ok ())

/-- Counterexample to C4: `import_csv` returns from a fully successful call
with its connection still open — the trace opens a connection and never
closes it. -/
theorem import_csv_counterexample :
    Event.connect ∈
      (import_csv "COPY t FROM STDIN WITH CSV".data
        (Except.ok ()) (Except.ok ())).1 ∧
    Event.connClose ∉
      (import_csv "COPY t FROM STDIN WITH CSV".data
        (Except.ok ()) (Except.ok ())).1 := by
  decide

theorem count_connect_execLoop (db : Nat → Option Str) :
    ∀ (cmds : List Str) (i : Nat),
      List.count Event.connect (execLoop db i cmds) = 0
  | [], _ => rfl
  | c :: cs, i => by
    cases h : db i with
    | none =>
      simp [execLoop, h, List.count_cons, count_connect_execLoop db cs (i + 1)]
    | some msg =>
      simp [execLoop, h, List.count_cons]

/-- C4 (amended): every modelled database operation opens exactly one
fresh connection per call (no connection state is shared across calls),
and `run_sql_script` closes it before returning on every path; but
`import_csv` and `export_to_csv` return without ever closing the
connection they opened. -/
theorem connection_discipline (sqlText : Str) (c1 c2 : Except Str Unit)
    (script : Str) (db : Nat → Option Str) :
    List.count Event.connect (import_csv sqlText c1 c2).1 = 1 ∧
    Event.connClose ∉ (import_csv sqlText c1 c2).1 ∧
    List.count Event.connect (export_to_csv sqlText c1 c2).1 = 1 ∧
    Event.connClose ∉ (export_to_csv sqlText c1 c2).1 ∧
    List.count Event.connect (run_sql_script script db) = 1 ∧
    Event.connClose ∈ run_sql_script script db := by
  refine ⟨?_, ?_, ?_, ?_, ?_, ?_⟩
  · cases c1 <;> cases c2 <;> simp [import_csv, List.count_cons]
  · cases c1 <;> cases c2 <;> simp [import_csv]
  · cases c1 <;> cases c2 <;> simp [export_to_csv, List.count_cons]
  · cases c1 <;> cases c2 <;> simp [export_to_csv]
  · simp [run_sql_script, List.count_cons, List.count_append,
      count_connect_execLoop db]
  · simp [run_sql_script]

/-- Witness for the amended C4 at a concrete successful call. -/
theorem connection_discipline_witness :
    Event.connClose ∉
      (import_csv "COPY u FROM STDIN".data (Except.ok ()) (Except.ok ())).1 ∧
    Event.connClose ∈
      run_sql_script "a;".data (fun _ => none) :=
  ⟨(connection_discipline "COPY u FROM STDIN".data (Except.ok ()) (Except.ok ())
      "a;".data (fun _ => none)).2.1,
   (connection_discipline "COPY u FROM STDIN".data (Except.ok ()) (Except.ok ())
      "a;".data (fun _ => none)).2.2.2.2.2⟩

/-- Joining split fragments back with `:`: the value part of a config line
may itself contain colons. -/
def joinColon : List Str → Str
  | [] => []
  | [g] => g
  | g :: gs => g ++ ':' :: joinColon gs

/-- Outcome of reading one line of a flat key-value configuration document:
a blank line is skipped, a `key: value` line yields a pair, and a nonblank
line with no `:` is malformed. -/
def parseConfigLine (line : Str) : Except Str (Option (Str × Str)) 
 :=
  if trimL line = [] then Except.ok none
  else
    match pySplit ':' line with
    | [] => Except.error line
    | [_] => Except.error ("could not find expected character in ".data ++ line)
    | k :: v :: vs => Except.ok (some (trimL k, trimL (joinColon (v :: vs))))

/-- Model of the external `yaml.full_load` restricted to the flat
key-value documents the connection configuration files use: each nonblank
line must be `key: value`, and a nonblank line without a colon stands for a
document that raises `yaml.YAMLError`. -/
def yamlFullLoad (s : Str) : Except Str (List (Str × Str)) :=
  (pySplit '\n' s).foldr
    (fun line acc =>
      match parseConfigLine line, acc with
      | Except.error e, _ => Except.error e
      | Except.ok _, Except.error e => Except.error e
      | Except.ok none, Except.ok m => Except.ok m
      | Except.ok (some kv), Except.ok m => Except.ok (kv :: m))
    (Except.ok [])

/-- Model of `SqlScriptRunner.get_yaml_config`: `open(configfile)` happens
outside the `try` block, so a missing file raises to the caller; inside the
`try`, a `yaml.YAMLError` from the loader (oracle `yaml`) is caught and
logged and the function falls off the end returning `None`; a successful
parse is returned.  The oracle `fs` maps a path to the file's contents when
the file is readable. -/
def get_yaml_config (yaml : Str → Except Str (List (Str × Str)))
    (fs : Str → Option Str) (configfile : Str) :
    Except PyErr (List Event × Option (List (Str × Str))) :=
  match fs configfile with
  | none => Except.error (PyErr.fileNotFound configfile)
  | some contents =>
    match yaml contents with
    | Except.ok config => Except.ok ([], some config)
    | Except.error e => Except.ok ([Event.logError e], none)

/-- C6: once the file opens, `get_yaml_config` never raises: a malformed
document's parse error is logged and `None` is returned to the caller,
while a well-formed document's mapping is returned; and the flat loader on
a well-formed file with the five fixed keys yields a mapping with exactly
those five fields. -/
theorem get_yaml_config_parse_policy
    (yaml : Str → Except Str (List (Str × Str))) (fs : Str → Option Str)
    (configfile contents : Str)
    (hfs : fs configfile = some contents) :
    get_yaml_config yaml fs configfile =
      Except.ok (match yaml contents with
        | Except.error e => ([Event.logError e], none)
        | Except.ok m => ([], some m)) ∧
    yamlFullLoad ("hostname: h\nportnumber: 5432\ndbname: d\ndbUser: u\ndbPass: p").data =
      Except.ok [("hostname".data, "h".data), ("portnumber".data, "5432".data),
                 ("dbname".data, "d".data), ("dbUser".data, "u".data),
                 ("dbPass".data, "p".data)] := by
  constructor
  · rw [get_yaml_config, hfs]
    cases hy : yaml contents with
    | ok m => simp [hy]
    | error e => simp [hy]
  · decide

/-- Witness for C6 at a concrete malformed document (a nonblank line with
no colon): the parse error is logged and `None` is returned, with no
exception. -/
theorem get_yaml_config_parse_policy_witness :
    get_yaml_config yamlFullLoad (fun _ => some "hostname".data) "db.yaml".data =
      Except.ok ([Event.logError
        ("could not find expected character in ".data ++ "hostname".data)], none) := by
  have h := get_yaml_config_parse_policy yamlFullLoad
    (fun _ => some "hostname".data) "db.yaml".data "hostname".data rfl
  exact h.1.trans (by decide)

/-- C10: when the configuration path does not refer to a readable file, the
`open` outside the `try` block raises and `get_yaml_config` propagates the
exception to the caller instead of logging and returning `None`. -/
theorem get_yaml_config_missing_file
    (yaml : Str → Except Str (List (Str × Str))) (fs : Str → Option Str)
    (configfile : Str) (hfs : fs configfile = none) :
    get_yaml_config yaml fs configfile =
      Except.error (PyErr.fileNotFound configfile) := by
  rw [get_yaml_config, hfs]

/-- Witness for C10 at a concrete missing file. -/
theorem get_yaml_config_missing_file_witness :
    get_yaml_config yamlFullLoad (fun _ => none) "absent.yaml".data =
      Except.error (PyErr.fileNotFound "absent.yaml".data) :=
  get_yaml_config_missing_file yamlFullLoad (fun _ => none) "absent.yaml".data rfl

/-- The JSON-shaped result of a SPARQL select query: the head variable list
and, per row, the variable bindings present in that row (each bound
variable paired with its `value` field). -/
structure SparqlResults where
  vars : List Str
  bindings : List (List (Str × Str))
  deriving Repr, DecidableEq

/-- Model of `result[v]["value"] if v in result else np.NaN` for one row:
the bound value of variable `v`, or `none` (NaN) when the row has no
binding for `v`. -/
def lookupBinding (b : List (Str × Str)) (v : Str) : Option Str :=
  (b.find? (fun p => p.1 == v)).map (fun p => p.2)

/-- The row-accumulation loop of `run_sparql_query`: starting from a frame
with the head variables as columns and no rows, each binding row is turned
into a one-row frame and concatenated onto the accumulator. -/
def flattenLoop (vars : List Str) (bindings : List (List (Str × Str)))
    (data : Frame) : Frame :=
  bindings.foldl
    (fun acc b =>
      { cols := acc.cols,
        rows := acc.rows ++ [vars.map (fun v => lookupBinding b v)] })
    data

/-- Model of `SPARQLQueryRunner.run_sparql_query`: issue the query with
JSON return format (oracle `net`), and on success flatten the variable
bindings into a frame whose columns are the head variables; on failure the
error is logged and the `return data` after the handler raises
`UnboundLocalError` on the unbound `data`. -/
def run_sparql_query (querytext : Str) (net : Except Str SparqlResults) :
    List Event × Except PyErr Frame :=
  match net with
  | Except.ok results =>
      ([Event.sparqlQueryIssued querytext],
       Except.ok (flattenLoop results.vars results.bindings
         { cols := results.vars, rows := [] }))
  | Except.error msg =>
      ([Event.sparqlQueryIssued querytext, Event.logError msg],
       Except.error (PyErr.unboundLocal "data".data))

theorem flattenLoop_spec (vars : List Str) :
    ∀ (bindings : List (List (Str × Str))) (data : Frame),
      flattenLoop vars bindings data =
        { cols := data.cols,
          rows := data.rows ++
            bindings.map (fun b => vars.map (fun v => lookupBinding b v)) }
  | [], data => by simp [flattenLoop]
  | b :: bs, data => by
    have hrec := flattenLoop_spec vars bs
      { cols := data.cols,
        rows := data.rows ++ [vars.map (fun v => lookupBinding b v)] }
    simp only [flattenLoop] at hrec
    simp only [flattenLoop, List.foldl_cons]
    rw [hrec]
    simp

/-- C7: a successful SPARQL query returns a table whose columns are exactly
the head variables and whose rows, in binding order, hold each binding's
value for each variable; a variable with no binding in a row yields the
null-equivalent cell (`none`, modelling NaN). -/
theorem run_sparql_query_flattens (q : Str) (results : SparqlResults) :
    (run_sparql_query q (Except.ok results)).2 =
      Except.ok
        { cols := results.vars,
          rows := results.bindings.map
            (fun b => results.vars.map (fun v => lookupBinding b v)) } ∧
    (∀ b v, b.find? (fun p => p.1 == v) = none → lookupBinding b v = none) := by
  constructor
  · simp only [run_sparql_query, flattenLoop_spec]
    simp
  · intro b v h
    simp [lookupBinding, h]

/-- Witness for C7: a two-variable result where the second row has no
binding for the second variable flattens to rows with a NaN cell in that
position. -/
theorem run_sparql_query_flattens_witness :
    lookupBinding [("x".data, "3".data)] "y".data = none ∧
    (run_sparql_query "q".data (Except.ok
        { vars := ["x".data, "y".data],
          bindings := [[("x".data, "1".data), ("y".data, "2".data)],
                       [("x".data, "3".data)]] })).2 =
      Except.ok
        { cols := ["x".data, "y".data],
          rows := [[some "1".data, some "2".data],
                   [some "3".data, none]] } := by
  have h := run_sparql_query_flattens "q".data
    { vars := ["x".data, "y".data],
      bindings := [[("x".data, "1".data), ("y".data, "2".data)],
                   [("x".data, "3".data)]] }
  exact ⟨h.2 [("x".data, "3".data)] "y".data (by decide), h.1.trans (by decide)⟩

mutual
/-- An lxml element as `remove_connections` sees it: expanded tag (the
namespace, when any, in `\x7buri\x7d` form before the local name),
attributes, leading text, child elements, and the tail text that follows
the element in its parent. -/
inductive Xml where
  | elem : Str → List (Str × Str) → Option Str → XmlForest → Option Str → Xml
  deriving Repr, DecidableEq
/-- A sequence of sibling elements. -/
inductive XmlForest where
  | nil : XmlForest
  | cons : Xml → XmlForest → XmlForest
  deriving Repr, DecidableEq
end

/-- The expanded tag of an element. -/
def Xml.tag : Xml → Str
  | .elem t _ _ _ _ => t

/-- The local part of an expanded tag: everything after the closing brace
of the namespace part, or the tag itself when it carries no namespace. -/
def localName (tag : Str) : Str :=
  match tag with
  | '\x7b' :: rest => (rest.dropWhile (fun c => c != '\x7d')).drop 1
  | t => t

/-- Whether `etree.strip_elements(tree, "\x7b*\x7dconnection", ...)`
matches an element: local name `connection` in any namespace, including
none. -/
def isConnElem (x : Xml) : Bool := localName x.tag == "connection".data

mutual
/-- Model of `etree.strip_elements(tree, "\x7b*\x7dconnection",
with_tail=True)` on an element: the root element itself is kept, and every
matching element anywhere below it is removed together with its subtree and
its tail text. -/
def stripConn : Xml → Xml
  | .elem t a txt ch tl => .elem t a txt (stripConnForest ch) tl
/-- `stripConn` lifted to a sibling sequence: matching siblings are dropped
whole (tail included), the others are stripped recursively. -/
def stripConnForest : XmlForest → XmlForest
  | .nil => .nil
  | .cons x xs =>
    if isConnElem x then stripConnForest xs
    else .cons (stripConn x) (stripConnForest xs)
end

mutual
/-- No element of the subtree, the root included, has local name
`connection`. -/
def connFree : Xml → Bool
  | .elem t _ _ ch _ => (localName t != "connection".data) && connFreeForest ch
/-- `connFree` over a sibling sequence. -/
def connFreeForest : XmlForest → Bool
  | .nil => true
  | .cons x xs => connFree x && connFreeForest xs
end

/-- One directory pass of `remove_connections`: every file whose name ends
in `.ktr` or `.kjb` is parsed, stripped and written back to its original
path; other files are not touched.  A file is modelled as its name paired
with its parsed document, and the result lists the performed writes in
order. -/
def processDir (path : Str) : List (Str × Xml) → List (Str × Xml)
  | [] => []
  | f :: fs =>
    if sfxOf ".ktr".data f.1 || sfxOf ".kjb".data f.1 then
      (path ++ '/' :: f.1, stripConn f.2) :: processDir path fs
    else processDir path fs

/-- Model of `PentahoConnectionRemover.remove_connections`: iterate over
the directory list, and in each directory over its files, stripping the
recognised Pentaho files in place.  The result is the list of file writes
(target path, written document) the call performs. -/
def remove_connections : List (Str × List (Str × Xml)) → List (Str × Xml)
  | [] => []
  | d :: ds => processDir d.1 d.2 ++ remove_connections ds

mutual
theorem connFree_stripConn :
    ∀ x : Xml, isConnElem x = false → connFree (stripConn x) = true
  | .elem t a txt ch tl, h => by
    simp only [stripConn, connFree, Bool.and_eq_true, bne_iff_ne]
    constructor
    · simp only [isConnElem, Xml.tag, beq_eq_false_iff_ne, ne_eq] at h
      exact h
    · exact connFreeForest_stripConnForest ch
theorem connFreeForest_stripConnForest :
    ∀ f : XmlForest, connFreeForest (stripConnForest f) = true
  | .nil => rfl
  | .cons x xs => by
    cases hx : isConnElem x with
    | true =>
      simp only [stripConnForest, hx, if_true]
      exact connFreeForest_stripConnForest xs
    | false =>
      simp only [stripConnForest, hx, if_false, connFreeForest,
        Bool.and_eq_true]
      exact ⟨connFree_stripConn x hx, connFreeForest_stripConnForest xs⟩
end

mutual
theorem stripConn_of_connFree :
    ∀ x : Xml, connFree x = true → stripConn x = x
  | .elem t a txt ch tl, h => by
    simp only [connFree, Bool.and_eq_true] at h
    simp only [stripConn, stripConnForest_of_connFree ch h.2]
theorem stripConnForest_of_connFree :
    ∀ f : XmlForest, connFreeForest f = true → stripConnForest f = f
  | .nil, _ => rfl
  | .cons x xs, h => by
    simp only [connFreeForest, Bool.and_eq_true] at h
    have hx : isConnElem x = false := by
      cases x with
      | elem t a txt ch tl =>
        simp only [connFree, Bool.and_eq_true, bne_iff_ne, ne_eq] at h
        simp only [isConnElem, Xml.tag, beq_eq_false_iff_ne, ne_eq]
        exact h.1.1
    simp [stripConnForest, hx,
      stripConn_of_connFree x h.1, stripConnForest_of_connFree xs h.2]
end

theorem processDir_filter (path : Str) :
    ∀ files : List (Str × Xml),
      processDir path files =
        (files.filter
            (fun f => sfxOf ".ktr".data f.1 || sfxOf ".kjb".data f.1)).map
          (fun f => (path ++ '/' :: f.1, stripConn f.2))
  | [] => rfl
  | f :: fs => by
    cases hf : (sfxOf ".ktr".data f.1 || sfxOf ".kjb".data f.1) with
    | true =>
      simp only [processDir, hf, if_true, List.filter_cons, List.map_cons,
        processDir_filter path fs]
    | false =>
      simp [processDir, hf, List.filter_cons, processDir_filter path fs]

/-- C8: `remove_connections` writes exactly the files whose names end in
`.ktr` or `.kjb`, each at its original path with every
connection-credential element (in any namespace) removed; after stripping
no element below the root has the connection tag; an element containing no
connection element anywhere is preserved entirely unchanged — in
particular the siblings of a removed element and their attribute values —
and the root's tag, attributes, text and tail are never altered. -/
theorem remove_connections_spec (pathlist : List (Str × List (Str × Xml))) :
    remove_connections pathlist =
      pathlist.flatMap (fun d =>
        (d.2.filter
            (fun f => sfxOf ".ktr".data f.1 || sfxOf ".kjb".data f.1)).map
          (fun f => (d.1 ++ '/' :: f.1, stripConn f.2))) ∧
    (∀ f : XmlForest, connFreeForest (stripConnForest f) = true) ∧
    (∀ x : Xml, connFree x = true → stripConn x = x) ∧
    (∀ t a txt ch tl,
      stripConn (Xml.elem t a txt ch tl) =
        Xml.elem t a txt (stripConnForest ch) tl) := by
  refine ⟨?_, connFreeForest_stripConnForest, stripConn_of_connFree,
    fun t a txt ch tl => rfl⟩
  induction pathlist with
  | nil => rfl
  | cons d ds ih =>
    simp only [remove_connections, List.flatMap_cons, ih,
      processDir_filter d.1 d.2]

/-- Witness for C8: a transformation file with one `connection` element
between two sibling steps is rewritten at its original path with the
connection removed and both siblings, attributes included, intact; the
connection-free sibling is preserved unchanged by the strip. -/
theorem remove_connections_spec_witness :
    connFree (Xml.elem "step".data [("name".data, "s1".data)] none
      XmlForest.nil none) = true ∧
    stripConn (Xml.elem "step".data [("name".data, "s1".data)] none
      XmlForest.nil none) =
      Xml.elem "step".data [("name".data, "s1".data)] none
        XmlForest.nil none ∧
    remove_connections
      [("jobs".data,
        [("t1.ktr".data,
          Xml.elem "transformation".data [] none
            (XmlForest.cons
              (Xml.elem "step".data [("name".data, "s1".data)] none
                XmlForest.nil none)
              (XmlForest.cons
                (Xml.elem "connection".data [] (some "secret".data)
                  XmlForest.nil none)
                (XmlForest.cons
                  (Xml.elem "step".data [("name".data, "s2".data)] none
                    XmlForest.nil none)
                  XmlForest.nil))) none),
         ("notes.txt".data,
          Xml.elem "note".data [] none XmlForest.nil none)])] =
      [("jobs/t1.ktr".data,
        Xml.elem "transformation".data [] none
          (XmlForest.cons
            (Xml.elem "step".data [("name".data, "s1".data)] none
              XmlForest.nil none)
            (XmlForest.cons
              (Xml.elem "step".data [("name".data, "s2".data)] none
                XmlForest.nil none)
              XmlForest.nil)) none)] := by
  have h := remove_connections_spec
    [("jobs".data,
      [("t1.ktr".data,
        Xml.elem "transformation".data [] none
          (XmlForest.cons
            (Xml.elem "step".data [("name".data, "s1".data)] none
              XmlForest.nil none)
            (XmlForest.cons
              (Xml.elem "connection".data [] (some "secret".data)
                XmlForest.nil none)
              (XmlForest.cons
                (Xml.elem "step".data [("name".data, "s2".data)] none
                  XmlForest.nil none)
                XmlForest.nil))) none),
       ("notes.txt".data,
        Xml.elem "note".data [] none XmlForest.nil none)])]
  refine ⟨by decide, ?_, ?_⟩
  · exact h.2.2.1 (Xml.elem "step".data [("name".data, "s1".data)] none
      XmlForest.nil none) (by decide)
  · exact h.1.trans (by decide)

/-- The fixed Turtle repository-configuration template of `rdfdb_create`,
parameterized only by the repository id, which is interpolated twice: as
`rep:repositoryID` and as `rdfs:label`. -/
def ttlTemplate (rdf_repository : Str) : Str :=
  "\n        @prefix rdfs: <http://www.w3.org/2000/01/rdf-schema#>.\n        @prefix rep: <http://www.openrdf.org/config/repository#>.\n        @prefix sr: <http://www.openrdf.org/config/repository/sail#>.\n        @prefix sail: <http://www.openrdf.org/config/sail#>.\n        @prefix ms: <http://www.openrdf.org/config/sail/memory#>.\n        [] a rep:Repository ;\n        rep:repositoryID \"".data
  ++ rdf_repository
  ++ "\" ;\n        rdfs:label \"".data
  ++ rdf_repository
  ++ "\" ;\n        rep:repositoryImpl [\n            rep:repositoryType \"openrdf:SailRepository\" ;\n            sr:sailImpl [\n            sail:sailType \"openrdf:MemoryStore\" ;\n            ms:persist true ;\n            ms:syncDelay 120\n            ]\n        ].\n        ".data

/-- Writing a file into the modelled local directory, replacing any
existing file of the same name (Python `open(name, "w")`). -/
def fsWrite (fs : List (Str × Str)) (name content : Str) : List (Str × Str) :=
  (name, content) :: fs.filter (fun p => !(p.1 == name))

/-- Reading a file from the modelled local directory. -/
def fsRead (fs : List (Str × Str)) (name : Str) : Option Str :=
  (fs.find? (fun p => p.1 == name)).map (fun p => p.2)

/-- Model of `SPARQLQueryRunner.rdfdb_create`: instantiate the fixed Turtle
template with the repository id, write it to the fixed local file name
`createrepo.ttl` (overwriting any previous file of that name), then run
`curl -X PUT --data-binary @createrepo.ttl` against the endpoint — an HTTP
PUT whose body is the file just written.  The result is the event trace
paired with the local directory after the call. -/
def rdfdb_create (endpoint rdf_repository : Str) (fs : List (Str × Str)) :
    List Event × List (Str × Str) :=
  let fs2 := fsWrite fs "createrepo.ttl".data (ttlTemplate rdf_repository)
  ([Event.fileWrite "createrepo.ttl".data (ttlTemplate rdf_repository),
    Event.httpPut endpoint ((fsRead fs2 "createrepo.ttl".data).getD [])],
   fs2)

theorem fsRead_fsWrite_same (fs : List (Str × Str)) (name content : Str) :
    fsRead (fsWrite fs name content) name = some content := by
  simp [fsRead, fsWrite]

theorem find?_filter_ne (name other : Str) (h : other ≠ name) :
    ∀ fs : List (Str × Str),
      List.find? (fun p => p.1 == other)
          (fs.filter (fun p => !(p.1 == name))) =
        List.find? (fun p => p.1 == other) fs
  | [] => rfl
  | p :: ps => by
    cases hpn : (p.1 == name) with
    | true =>
      have hpn2 : p.1 = name := by simpa using hpn
      have hfo : (p.1 == other) = false := by
        simp only [beq_eq_false_iff_ne, ne_eq, hpn2]
        exact fun he => h he.symm
      simp [List.filter_cons, hpn, List.find?_cons, hfo,
        find?_filter_ne name other h ps]
    | false =>
      cases hfo : (p.1 == other) with
      | true => simp [List.filter_cons, hpn, List.find?_cons, hfo]
      | false => simp [List.filter_cons, hpn, List.find?_cons, hfo,
          find?_filter_ne name other h ps]

theorem fsRead_fsWrite_ne (fs : List (Str × Str)) (name content other : Str)
    (h : other ≠ name) :
    fsRead (fsWrite fs name content) other = fsRead fs other := by
  have hno : (name == other) = false := by
    simp only [beq_eq_false_iff_ne, ne_eq]
    exact fun he => h he.symm
  simp only [fsRead, fsWrite, List.find?_cons, hno]
  rw [find?_filter_ne name other h fs]

/-- C9: `rdfdb_create` performs exactly two effects in order — it writes
the Turtle document generated from the fixed template and the repository
id to the fixed local name `createrepo.ttl`, then issues an HTTP PUT of
that file's content to the endpoint; after the call the local file holds
the generated document whatever it held before, and no other local file is
touched. -/
theorem rdfdb_create_spec (endpoint rdf_repository : Str)
    (fs : List (Str × Str)) :
    (rdfdb_create endpoint rdf_repository fs).1 =
      [Event.fileWrite "createrepo.ttl".data (ttlTemplate rdf_repository),
       Event.httpPut endpoint (ttlTemplate rdf_repository)] ∧
    fsRead (rdfdb_create endpoint rdf_repository fs).2 "createrepo.ttl".data =
      some (ttlTemplate rdf_repository) ∧
    (∀ other, other ≠ "createrepo.ttl".data →
      fsRead (rdfdb_create endpoint rdf_repository fs).2 other =
        fsRead fs other) := by
  refine ⟨?_, ?_, ?_⟩
  · simp only [rdfdb_create, fsRead_fsWrite_same, Option.getD_some]
  · simp only [rdfdb_create, fsRead_fsWrite_same]
  · intro other hother
    simp only [rdfdb_create]
    exact fsRead_fsWrite_ne fs "createrepo.ttl".data
      (ttlTemplate rdf_repository) other hother

/-- Witness for C9: creating a repository next to an unrelated local file
leaves that file readable with its old content, and the trace is the
write-then-PUT pair. -/
theorem rdfdb_create_spec_witness :
    fsRead (rdfdb_create "http://db:7200/repositories/r1".data "r1".data
        [("keep.txt".data, "hello".data)]).2 "keep.txt".data =
      some "hello".data ∧
    (rdfdb_create "http://db:7200/repositories/r1".data "r1".data
        [("keep.txt".data, "hello".data)]).1 =
      [Event.fileWrite "createrepo.ttl".data (ttlTemplate "r1".data),
       Event.httpPut "http://db:7200/repositories/r1".data
         (ttlTemplate "r1".data)] := by
  have h := rdfdb_create_spec "http://db:7200/repositories/r1".data "r1".data
    [("keep.txt".data, "hello".data)]
  exact ⟨(h.2.2 "keep.txt".data (by decide)).trans (by decide), h.1⟩
